import Mathlib

/-!
Verification of the stream-selection and download/mux pipeline of
`src/youtube.py` against its specification.

The Python program is shallowly embedded: pytubefix stream objects become the
`StreamDesc` value type; the stream-query combinators used by `main`
(`filter`, `order_by('resolution')`, `desc`, `first`) become list operations;
the interactive selection loop becomes a function over the (finite, modeled)
sequence of user inputs; the download/mux pipeline becomes a straight-line
state transformer over an explicit file-system model, with Python exceptions
(`Exception` subclasses vs `KeyboardInterrupt`) represented by the `PyExc`
type.  Resolution labels of the form `"1080p"` are embedded as the numeric
height `1080` (the label is rendered back as digits followed by `'p'` where
filenames are built); audio bitrate labels `"128kbps"` likewise as `128`.
These renderings are injective, so label equality coincides with numeric
equality.
-/

namespace Youtube

/-- Filesystem paths and message texts are modeled as lists of characters. -/
abbrev FPath := List Char

/-- One pytubefix stream descriptor, as read by `src/youtube.py`: the
attributes `adaptive`, `only_video` (named `includes_video_track` vs audio in
pytubefix, exposed to `filter` as `only_video`), `only_audio`,
`file_extension`, `resolution` (height of the `"Np"` label, `none` when the
stream has no resolution) and `abr` (numeric part of the `"Nkbps"` label). -/
structure StreamDesc where
  adaptive : Bool
  only_video : Bool
  only_audio : Bool
  file_extension : String
  resolution : Option Nat
  abr : Option Nat
deriving DecidableEq

/-- Numeric sort key used by pytubefix `order_by('resolution')`, which sorts
by the integer formed from the digits of the attribute. -/
def resVal (d : StreamDesc) : Nat := d.resolution.getD 0

/-- Numeric sort key used by pytubefix `order_by('abr')`. -/
def abrVal (d : StreamDesc) : Nat := d.abr.getD 0

/-- Ascending comparison on the `resolution` sort key. -/
def resLe (a b : StreamDesc) : Prop := resVal a ≤ resVal b

instance : DecidableRel resLe := fun a b => Nat.decLe (resVal a) (resVal b)

instance : IsTotal StreamDesc resLe := ⟨fun a b => Nat.le_total (resVal a) (resVal b)⟩

instance : IsTrans StreamDesc resLe := ⟨fun _ _ _ hab hbc => Nat.le_trans hab hbc⟩

/-- Ascending comparison on the `abr` sort key. -/
def abrLe (a b : StreamDesc) : Prop := abrVal a ≤ abrVal b

instance : DecidableRel abrLe := fun a b => Nat.decLe (abrVal a) (abrVal b)

instance : IsTotal StreamDesc abrLe := ⟨fun a b => Nat.le_total (abrVal a) (abrVal b)⟩

instance : IsTrans StreamDesc abrLe := ⟨fun _ _ _ hab hbc => Nat.le_trans hab hbc⟩

/-- Embeds `yt.streams.filter(adaptive=True, only_video=True,
file_extension='mp4').order_by('resolution').desc()` from `main`
(src/youtube.py lines 186-190).  pytubefix `order_by` first drops streams
whose attribute is `None`, then stably sorts ascending by the integer key;
`desc` reverses the result. -/
def videoStreamsOf (ds : List StreamDesc) : List StreamDesc :=
  (List.insertionSort resLe
    ((ds.filter fun d => d.adaptive && d.only_video && d.file_extension == "mp4").filter
      fun d => d.resolution.isSome)).reverse

/-- Embeds the enumeration loop at the top of `select_resolution`
(src/youtube.py lines 98-104): walk the streams in order, appending each
truthy resolution label not already collected (`resolucoes.append`). -/
def collectResolutions : List StreamDesc → List Nat → List Nat
  | [], acc => acc
  | s :: rest, acc =>
    match s.resolution with
    | some r => if r ∈ acc then collectResolutions rest acc
                else collectResolutions rest (acc ++ [r])
    | none => collectResolutions rest acc

/-- The resolution menu presented to the user: the label sequence that
`select_resolution` builds from the filtered, descending-ordered streams. -/
def availableResolutions (ds : List StreamDesc) : List Nat :=
  collectResolutions (videoStreamsOf ds) []

/-- One interaction with `input()` inside the selection loop: a line whose
`int(...)` conversion yields `some i`, a line raising `ValueError` (`none`),
or a `KeyboardInterrupt` delivered while waiting for input. -/
inductive UserInput
  | line (v : Option Int)
  | interrupt
deriving DecidableEq

/-- Result of running the selection loop on a finite modeled input sequence.
`exhausted` means the loop is still iterating (it consumed every modeled
input without returning); the real loop would keep prompting. -/
inductive SelectOutcome
  | selected (r : Nat)
  | interrupted
  | exhausted
deriving DecidableEq

/-- User-facing console messages of the pipeline, by call site. -/
inductive Msg
  | invalidOption
  | invalidNumber
  | mergingFiles
  | downloadSuccess
  | savedAt (p : FPath)
  | errorDuring (s : FPath)
  | streamsNotFound
  | cancelled
deriving DecidableEq

/-- Embeds the `while True` loop of `select_resolution` (src/youtube.py lines
107-114): `opcao = int(input(...)) - 1`; when `0 <= opcao < len(resolucoes)`
return `resolucoes[opcao]`, otherwise print the out-of-range message and loop;
a `ValueError` from `int` prints the malformed-input message and loops.  A
`KeyboardInterrupt` is caught by neither `except ValueError` nor anything else
in `select_resolution`, so it aborts the loop. -/
def selectLoop (labels : List Nat) : List UserInput → SelectOutcome × List Msg
  | [] => (.exhausted, [])
  | .interrupt :: _ => (.interrupted, [])
  | .line none :: rest =>
    let r := selectLoop labels rest
    (r.1, .invalidNumber :: r.2)
  | .line (some i) :: rest =>
    if 0 ≤ i - 1 ∧ i - 1 < (labels.length : Int) then
      (.selected (labels.getD (i - 1).toNat 0), [])
    else
      let r := selectLoop labels rest
      (r.1, .invalidOption :: r.2)

/-- Embeds `yt.streams.filter(res=resolucao_escolhida, only_video=True,
file_extension='mp4').first()` (src/youtube.py lines 194-198). -/
def videoFor (ds : List StreamDesc) (res : Nat) : Option StreamDesc :=
  (ds.filter fun d =>
    d.resolution == some res && d.only_video && d.file_extension == "mp4").head?

/-- The audio-only, mp4 streams that carry an `abr` attribute; pytubefix
`order_by('abr')` drops attribute-less streams before sorting. -/
def audioCandidates (ds : List StreamDesc) : List StreamDesc :=
  (ds.filter fun d => d.only_audio && d.file_extension == "mp4").filter
    fun d => d.abr.isSome

/-- Embeds `yt.streams.filter(only_audio=True, file_extension='mp4')
.order_by('abr').desc().first()` (src/youtube.py lines 200-203). -/
def selectAudio (ds : List StreamDesc) : Option StreamDesc :=
  ((List.insertionSort abrLe (audioCandidates ds)).reverse).head?

/-- The (video, audio) descriptor pair main resolves after the user picked a
resolution label (src/youtube.py lines 194-203). -/
def resolveDescriptors (ds : List StreamDesc) (res : Nat) :
    Option StreamDesc × Option StreamDesc :=
  (videoFor ds res, selectAudio ds)

/-- Concrete descriptor collection used by closed witness instances: a 1080p
and a 720p adaptive mp4 video stream plus 128kbps and 256kbps mp4 audio
streams. -/
def dsExample : List StreamDesc :=
  [⟨true, true, false, "mp4", some 1080, none⟩,
   ⟨true, true, false, "mp4", some 720, none⟩,
   ⟨true, true, false, "mp4", some 720, none⟩,
   ⟨false, false, true, "mp4", none, some 128⟩,
   ⟨false, false, true, "mp4", none, some 256⟩]

/-- The 256kbps audio descriptor of `dsExample`. -/
def audioExample : StreamDesc := ⟨false, false, true, "mp4", none, some 256⟩

/-- ASCII uppercase-to-lowercase table, used to model the lowercasing that
the `slugify` call performs on the video title. -/
def upperLower : List (Char × Char) :=
  [('A', 'a'), ('B', 'b'), ('C', 'c'), ('D', 'd'), ('E', 'e'), ('F', 'f'),
   ('G', 'g'), ('H', 'h'), ('I', 'i'), ('J', 'j'), ('K', 'k'), ('L', 'l'),
   ('M', 'm'), ('N', 'n'), ('O', 'o'), ('P', 'p'), ('Q', 'q'), ('R', 'r'),
   ('S', 's'), ('T', 't'), ('U', 'u'), ('V', 'v'), ('W', 'w'), ('X', 'x'),
   ('Y', 'y'), ('Z', 'z')]

/-- Per-character behavior of the external `python-slugify` library on ASCII
text, as `download_and_merge` uses it via `slugify(yt.title)`: lowercase
letters and digits survive unchanged, uppercase letters are lowercased, and
every other character is a word separator (`none`).  Non-ASCII input is
approximated as a separator. -/
def slugChar (c : Char) : Option Char :=
  if ('a' ≤ c ∧ c ≤ 'z') ∨ ('0' ≤ c ∧ c ≤ '9') then some c
  else
    match upperLower.find? (fun p => p.1 == c) with
    | some p => some p.2
    | none => none

/-- Splits a separator-annotated character list into words. -/
def splitSep : List (Option Char) → List (List Char)
  | [] => [[]]
  | none :: rest => [] :: splitSep rest
  | some c :: rest =>
    match splitSep rest with
    | [] => [[c]]
    | w :: ws => (c :: w) :: ws

/-- Joins words with single dashes, as `slugify` does. -/
def joinDash : List (List Char) → List Char
  | [] => []
  | [w] => w
  | w :: ws => w ++ '-' :: joinDash ws

/-- Model of `slugify(title)`: split on separator characters, drop empty
words, join the surviving words with `-`.  This collapses separator runs and
trims leading and trailing separators exactly as the library does. -/
def slugifyChars (s : List Char) : List Char :=
  joinDash ((splitSep (s.map slugChar)).filter fun w => !w.isEmpty)

/-- Characters the spec's safe filesystem charset admits for the normalized
title component: lowercase ASCII letters, digits, and the dash. -/
def safeChar (c : Char) : Prop :=
  ('a' ≤ c ∧ c ≤ 'z') ∨ ('0' ≤ c ∧ c ≤ '9') ∨ c = '-'

instance : DecidablePred safeChar := fun c =>
  inferInstanceAs (Decidable (('a' ≤ c ∧ c ≤ 'z') ∨ ('0' ≤ c ∧ c ≤ '9') ∨ c = '-'))

/-- Rendering of the embedded resolution label `r` back to its textual form
`"{r}p"`, as interpolated into the output filename. -/
def resLabelChars (r : Nat) : List Char := Nat.toDigits 10 r ++ ['p']

/-- The output filename `f"{safe_title}_{video_stream.resolution}.mp4"`
(src/youtube.py line 130). -/
def outputFileName (title : List Char) (res : Nat) : List Char :=
  slugifyChars title ++ '_' :: (resLabelChars res ++ ".mp4".data)

/-- The temporary video filename `f"{yt.video_id}_video.mp4"` (line 128). -/
def videoTempName (video_id : List Char) : List Char :=
  video_id ++ "_video.mp4".data

/-- The temporary audio filename `f"{yt.video_id}_audio.mp4"` (line 129). -/
def audioTempName (video_id : List Char) : List Char :=
  video_id ++ "_audio.mp4".data

/-- Model of `pathlib`'s `destino / name`. -/
def joinPath (dir name : List Char) : List Char := dir ++ '/' :: name

/-- Full path of the temporary video artifact. -/
def videoTempPath (dir video_id : List Char) : List Char :=
  joinPath dir (videoTempName video_id)

/-- Full path of the temporary audio artifact. -/
def audioTempPath (dir video_id : List Char) : List Char :=
  joinPath dir (audioTempName video_id)

/-- Full path of the muxed output artifact. -/
def outputFilePath (dir title : List Char) (res : Nat) : List Char :=
  joinPath dir (outputFileName title res)

/-- Stages of `download_and_merge` at which the environment can make the
blocking call fail or deliver a `KeyboardInterrupt`. -/
inductive DMStage
  | videoDl
  | audioDl
  | mux
  | removeVideo
  | removeAudio
deriving DecidableEq

/-- Environment of one `download_and_merge` run: which downloads succeed,
the ffmpeg exit status and captured output, whether each `os.remove`
succeeds, and an optional externally delivered interrupt. -/
structure MuxEnv where
  videoOk : Bool
  audioOk : Bool
  ffmpegReturncode : Nat
  ffmpegStdout : FPath
  ffmpegStderr : FPath
  removeVideoOk : Bool
  removeAudioOk : Bool
  interrupt : Option DMStage
deriving DecidableEq

/-- Python exceptions the pipeline can encounter.  `keyboardInterrupt` is the
only one deriving from `BaseException` but not `Exception`, so it is the only
one the `except Exception` handler in `download_and_merge` does not catch. -/
inductive PyExc
  | pytubeError
  | calledProcessError (cmd : List FPath) (returncode : Nat) (stdout stderr : FPath)
  | osError (path : FPath)
  | keyboardInterrupt
deriving DecidableEq

/-- Whether `except Exception` catches this exception. -/
def PyExc.isException : PyExc → Bool
  | .keyboardInterrupt => false
  | _ => true

/-- Joins command arguments with spaces, for rendering a failed command. -/
def joinSpace : List FPath → FPath
  | [] => []
  | [a] => a
  | a :: rest => a ++ ' ' :: joinSpace rest

/-- Model of Python `str(e)` for each exception: a `CalledProcessError`
renders as `Command <cmd> returned non-zero exit status <n>.` and in
particular never includes the captured stdout/stderr; an `OSError` names the
failing path; a download error is an opaque network message. -/
def PyExc.str : PyExc → FPath
  | .pytubeError => "download failed".data
  | .calledProcessError cmd code _ _ =>
      "Command ".data ++ joinSpace cmd
        ++ " returned non-zero exit status ".data
        ++ Nat.toDigits 10 code ++ ".".data
  | .osError p => "[Errno 13] Permission denied: ".data ++ p
  | .keyboardInterrupt => []

/-- Observable actions of a run: blocking-call attempts and console prints. -/
inductive Event
  | download (p : FPath)
  | muxCall (cmd : List FPath)
  | removeCall (p : FPath)
  | printMsg (m : Msg)
deriving DecidableEq

/-- How a modeled run ends: `finished` is a normal return from
`download_and_merge` (the process then exits 0), `exited c` is `sys.exit(c)`,
`raised e` is an exception propagating out of `main`, and `outOfInputs` means
the selection loop consumed every modeled input and is still prompting. -/
inductive Termination
  | finished
  | exited (code : Nat)
  | raised (e : PyExc)
  | outOfInputs
deriving DecidableEq

/-- Final state of a modeled run. -/
structure RunOut where
  fs : List FPath
  events : List Event
  term : Termination
deriving DecidableEq

/-- Filesystem model: writing a path. -/
def fsInsert (p : FPath) (fs : List FPath) : List FPath :=
  if p ∈ fs then fs else p :: fs

/-- Filesystem model: `os.remove`. -/
def fsErase (p : FPath) (fs : List FPath) : List FPath :=
  fs.filter fun q => q != p

/-- The ffmpeg invocation built at src/youtube.py lines 140-148. -/
def ffmpegCmd (video_path audio_path output_path : FPath) : List FPath :=
  ["ffmpeg".data, "-y".data, "-i".data, video_path, "-i".data, audio_path,
   "-c:v".data, "copy".data, "-c:a".data, "aac".data, "-strict".data,
   "experimental".data, output_path]

/-- Intermediate result of the `try` block body of `download_and_merge`:
filesystem, events so far, and the exception that aborted it, if any. -/
structure BodyOut where
  fs : List FPath
  events : List Event
  exc : Option PyExc
deriving DecidableEq

/-- The `try` block of `download_and_merge` (src/youtube.py lines 132-157):
download video, download audio, print the merging message, run ffmpeg with
`check=True` and `capture_output=True`, remove both temporaries, print the
success messages.  Each stage first observes a pending interrupt, then its
own failure mode; a failed download raises before the file exists, a failed
ffmpeg run raises `CalledProcessError` without writing the output, a failed
`os.remove` raises `OSError` without deleting. -/
def dmBody (video_path audio_path output_path : FPath) (cmd : List FPath)
    (env : MuxEnv) (fs0 : List FPath) : BodyOut :=
  if env.interrupt = some DMStage.videoDl then ⟨fs0, [], some .keyboardInterrupt⟩
  else if env.videoOk = false then
    ⟨fs0, [.download video_path], some .pytubeError⟩
  else
    let fs1 := fsInsert video_path fs0
    if env.interrupt = some DMStage.audioDl then
      ⟨fs1, [.download video_path], some .keyboardInterrupt⟩
    else if env.audioOk = false then
      ⟨fs1, [.download video_path, .download audio_path], some .pytubeError⟩
    else
      let fs2 := fsInsert audio_path fs1
      let ev2 : List Event :=
        [.download video_path, .download audio_path, .printMsg .mergingFiles]
      if env.interrupt = some DMStage.mux then ⟨fs2, ev2, some .keyboardInterrupt⟩
      else if env.ffmpegReturncode ≠ 0 then
        ⟨fs2, ev2 ++ [.muxCall cmd],
         some (.calledProcessError cmd env.ffmpegReturncode env.ffmpegStdout
           env.ffmpegStderr)⟩
      else
        let fs3 := fsInsert output_path fs2
        let ev3 := ev2 ++ [Event.muxCall cmd]
        if env.interrupt = some DMStage.removeVideo then
          ⟨fs3, ev3, some .keyboardInterrupt⟩
        else if env.removeVideoOk = false then
          ⟨fs3, ev3 ++ [.removeCall video_path], some (.osError video_path)⟩
        else
          let fs4 := fsErase video_path fs3
          let ev4 := ev3 ++ [Event.removeCall video_path]
          if env.interrupt = some DMStage.removeAudio then
            ⟨fs4, ev4, some .keyboardInterrupt⟩
          else if env.removeAudioOk = false then
            ⟨fs4, ev4 ++ [.removeCall audio_path], some (.osError audio_path)⟩
          else
            ⟨fsErase audio_path fs4,
             ev4 ++ [Event.removeCall audio_path, Event.printMsg .downloadSuccess,
               Event.printMsg (.savedAt output_path)],
             none⟩

/-- Embeds `download_and_merge(yt, video_stream, audio_stream, destino)`
(src/youtube.py lines 117-161): builds the three paths from the title, the
video id and the chosen resolution, runs the `try` body, and applies the
`except Exception` handler, which prints the error and calls `sys.exit(1)`;
a `KeyboardInterrupt` is not an `Exception` and propagates. -/
def download_and_merge (yt_title yt_video_id : FPath) (res : Nat)
    (destino : FPath) (env : MuxEnv) (fs0 : List FPath) : RunOut :=
  let video_path := videoTempPath destino yt_video_id
  let audio_path := audioTempPath destino yt_video_id
  let output_path := outputFilePath destino yt_title res
  let b := dmBody video_path audio_path output_path
    (ffmpegCmd video_path audio_path output_path) env fs0
  match b.exc with
  | none => ⟨b.fs, b.events, .finished⟩
  | some e =>
    if e.isException then
      ⟨b.fs, b.events ++ [.printMsg (.errorDuring (PyExc.str e))], .exited 1⟩
    else
      ⟨b.fs, b.events, .raised e⟩

/-- Embeds `main` from the resolution menu onward (src/youtube.py lines
185-209): build the filtered descending stream list, run the selection loop,
resolve the video and audio descriptors, fail with the streams-not-found
message and `sys.exit(1)` if either is missing, else run
`download_and_merge`. -/
def mainAfterInfo (ds : List StreamDesc) (yt_title yt_video_id : FPath)
    (destino : FPath) (inputs : List UserInput) (env : MuxEnv)
    (fs0 : List FPath) : RunOut :=
  let sel := selectLoop (availableResolutions ds) inputs
  let selEvents := sel.2.map Event.printMsg
  match sel.1 with
  | .exhausted => ⟨fs0, selEvents, .outOfInputs⟩
  | .interrupted => ⟨fs0, selEvents, .raised .keyboardInterrupt⟩
  | .selected res =>
    match videoFor ds res, selectAudio ds with
    | some vs, some _ =>
      let r := download_and_merge yt_title yt_video_id (resVal vs) destino env fs0
      ⟨r.fs, selEvents ++ r.events, r.term⟩
    | _, _ => ⟨fs0, selEvents ++ [.printMsg .streamsNotFound], .exited 1⟩

/-- Embeds the `__main__` guard (src/youtube.py lines 213-218): run `main`,
and catch a propagating `KeyboardInterrupt` by printing the cancellation
message and calling `sys.exit(0)`. -/
def mainProgram (ds : List StreamDesc) (yt_title yt_video_id : FPath)
    (destino : FPath) (inputs : List UserInput) (env : MuxEnv)
    (fs0 : List FPath) : RunOut :=
  let r := mainAfterInfo ds yt_title yt_video_id destino inputs env fs0
  match r.term with
  | .raised .keyboardInterrupt =>
    ⟨r.fs, r.events ++ [.printMsg .cancelled], .exited 0⟩
  | t => ⟨r.fs, r.events, t⟩

/-- Filesystem contents at the moment an interrupt strikes stage `s` of an
otherwise fault-free `download_and_merge` run, given the three paths and the
initial filesystem: exactly the artifacts the preceding stages wrote. -/
def fsAtStage (video_path audio_path output_path : FPath) (fs0 : List FPath) :
    DMStage → List FPath
  | .videoDl => fs0
  | .audioDl => fsInsert video_path fs0
  | .mux => fsInsert audio_path (fsInsert video_path fs0)
  | .removeVideo =>
    fsInsert output_path (fsInsert audio_path (fsInsert video_path fs0))
  | .removeAudio =>
    fsErase video_path
      (fsInsert output_path (fsInsert audio_path (fsInsert video_path fs0)))

/-- Text of each console message, for stating what a run surfaces to the
user.  Decorative glyphs are omitted; the informative content matches
src/youtube.py. -/
def msgText : Msg → FPath
  | .invalidOption => "Opcao invalida. Tente novamente.".data
  | .invalidNumber => "Por favor, digite um numero valido.".data
  | .mergingFiles => "Mesclando arquivos... ".data
  | .downloadSuccess => "Download concluido com sucesso!".data
  | .savedAt p => "Arquivo salvo em: ".data ++ p
  | .errorDuring s => "Erro durante o processo: ".data ++ s
  | .streamsNotFound => "Erro: Streams nao encontrados".data
  | .cancelled => "Operacao cancelada pelo usuario.".data

/-- Text an event shows on the console (empty for non-print events). -/
def eventText : Event → FPath
  | .printMsg m => msgText m
  | _ => []

/-- Decides whether `sub` occurs contiguously inside `l`. -/
def containsChars (l sub : List Char) : Bool :=
  decide (sub <:+: l)

/-- Fault-free environment: both downloads succeed, ffmpeg exits 0 with no
captured output, both removals succeed, no interrupt. -/
def envOk : MuxEnv := ⟨true, true, 0, [], [], true, true, none⟩

/-- Environment where only the removal of the video temporary fails. -/
def envRemoveFail : MuxEnv := { envOk with removeVideoOk := false }

/-- Environment where ffmpeg exits 1 with the diagnostic text `boom` on
stderr. -/
def envMuxFail : MuxEnv := { envOk with ffmpegReturncode := 1, ffmpegStderr := "boom".data }

/-- Descriptor collection with a video stream but no audio stream. -/
def dsNoAudio : List StreamDesc := [⟨true, true, false, "mp4", some 720, none⟩]

end Youtube

namespace Youtube

theorem collectResolutions_sorted :
    ∀ (l : List StreamDesc) (acc : List Nat),
      l.Pairwise (fun a b => resVal b ≤ resVal a) →
      acc.Sorted (fun a b => b < a) →
      (∀ a ∈ acc, ∀ d ∈ l, resVal d ≤ a) →
      (collectResolutions l acc).Sorted (fun a b => b < a)
  | [], _, _, hacc, _ => hacc
  | s :: rest, acc, hpair, hacc, hbound => by
    have hrest : rest.Pairwise (fun a b => resVal b ≤ resVal a) := hpair.of_cons
    have hhead : ∀ d ∈ rest, resVal d ≤ resVal s :=
      fun d hd => List.rel_of_pairwise_cons hpair hd
    match hres : s.resolution with
    | none =>
        simp only [collectResolutions, hres]
        exact collectResolutions_sorted rest acc hrest hacc
          (fun a ha d hd => hbound a ha d (List.mem_cons_of_mem s hd))
    | some r =>
        simp only [collectResolutions, hres]
        have hr : r = resVal s := by simp [resVal, hres]
        by_cases hmem : r ∈ acc
        · rw [if_pos hmem]
          exact collectResolutions_sorted rest acc hrest hacc
            (fun a ha d hd => hbound a ha d (List.mem_cons_of_mem s hd))
        · rw [if_neg hmem]
          have hacc' : (acc ++ [r]).Sorted (fun a b => b < a) := by
            rw [List.Sorted, List.pairwise_append]
            refine ⟨hacc, List.pairwise_singleton _ _, ?_⟩
            intro a ha b hb
            have hb' : b = r := List.mem_singleton.mp hb
            have hle : r ≤ a := by
              rw [hr]; exact hbound a ha s (List.mem_cons_self s rest)
            have hlt : r < a :=
              lt_of_le_of_ne hle (fun h => hmem (by rw [h]; exact ha))
            rw [hb']; exact hlt
          refine collectResolutions_sorted rest (acc ++ [r]) hrest hacc' ?_
          intro a ha d hd
          rcases List.mem_append.mp ha with h | h
          · exact hbound a h d (List.mem_cons_of_mem s hd)
          · have ha' : a = r := List.mem_singleton.mp h
            subst ha'
            exact hr ▸ hhead d hd

theorem mem_collectResolutions :
    ∀ (l : List StreamDesc) (acc : List Nat) (r : Nat),
      r ∈ collectResolutions l acc ↔ r ∈ acc ∨ ∃ d ∈ l, d.resolution = some r
  | [], acc, r => by simp [collectResolutions]
  | s :: rest, acc, r => by
    match hres : s.resolution with
    | none =>
        simp only [collectResolutions, hres]
        rw [mem_collectResolutions rest acc r]
        constructor
        · rintro (h | ⟨d, hd, hdr⟩)
          · exact Or.inl h
          · exact Or.inr ⟨d, List.mem_cons_of_mem s hd, hdr⟩
        · rintro (h | ⟨d, hd, hdr⟩)
          · exact Or.inl h
          · rcases List.mem_cons.mp hd with rfl | hd'
            · exact absurd hdr (by simp [hres])
            · exact Or.inr ⟨d, hd', hdr⟩
    | some r' =>
        simp only [collectResolutions, hres]
        by_cases hmem : r' ∈ acc
        · rw [if_pos hmem, mem_collectResolutions rest acc r]
          constructor
          · rintro (h | ⟨d, hd, hdr⟩)
            · exact Or.inl h
            · exact Or.inr ⟨d, List.mem_cons_of_mem s hd, hdr⟩
          · rintro (h | ⟨d, hd, hdr⟩)
            · exact Or.inl h
            · rcases List.mem_cons.mp hd with rfl | hd'
              · have : r = r' := by
                  have := hres ▸ hdr
                  exact (Option.some_inj.mp this.symm)
                exact Or.inl (this ▸ hmem)
              · exact Or.inr ⟨d, hd', hdr⟩
        · rw [if_neg hmem, mem_collectResolutions rest (acc ++ [r']) r]
          constructor
          · rintro (h | ⟨d, hd, hdr⟩)
            · rcases List.mem_append.mp h with h' | h'
              · exact Or.inl h'
              · have : r = r' := List.mem_singleton.mp h'
                exact Or.inr ⟨s, List.mem_cons_self s rest, this ▸ hres⟩
            · exact Or.inr ⟨d, List.mem_cons_of_mem s hd, hdr⟩
          · rintro (h | ⟨d, hd, hdr⟩)
            · exact Or.inl (List.mem_append.mpr (Or.inl h))
            · rcases List.mem_cons.mp hd with rfl | hd'
              · have : r' = r := Option.some_inj.mp (hres ▸ hdr)
                exact Or.inl (List.mem_append.mpr (Or.inr (List.mem_singleton.mpr this.symm)))
              · exact Or.inr ⟨d, hd', hdr⟩

theorem videoStreamsOf_pairwise (ds : List StreamDesc) :
    (videoStreamsOf ds).Pairwise (fun a b => resVal b ≤ resVal a) := by
  rw [videoStreamsOf, List.pairwise_reverse]
  exact List.sorted_insertionSort resLe _

/-- Claim C1: over the adaptive, video-only, mp4-filtered streams ordered by
resolution descending, the enumeration performed by `select_resolution`
produces a strictly descending, duplicate-free sequence of resolution labels,
and a label is listed exactly when some stream in that filtered ordering
carries it. -/
theorem availableResolutions_strictly_descending (ds : List StreamDesc) :
    (availableResolutions ds).Sorted (fun a b => b < a)
    ∧ (availableResolutions ds).Nodup
    ∧ ∀ r, r ∈ availableResolutions ds ↔ ∃ d ∈ videoStreamsOf ds, d.resolution = some r := by
  have hsorted : (availableResolutions ds).Sorted (fun a b => b < a) :=
    collectResolutions_sorted (videoStreamsOf ds) []
      (videoStreamsOf_pairwise ds) (List.sorted_nil) (by intro a ha; cases ha)
  refine ⟨hsorted, ?_, ?_⟩
  · exact hsorted.imp (fun h => Nat.ne_of_gt h)
  · intro r
    rw [availableResolutions, mem_collectResolutions]
    simp

/-- Claim C2: an input parsing as an integer `i` with `1 <= i <= len` makes
`select_resolution` return the label at 1-based position `i` immediately; a
well-formed but out-of-range ordinal prints the out-of-range message and
re-prompts; a non-numeric line prints the malformed-input message and
re-prompts.  In every case the loop recurses rather than raising or exiting. -/
theorem select_resolution_ordinal_spec (labels : List Nat) (i : Int)
    (rest : List UserInput) :
    (1 ≤ i → i ≤ (labels.length : Int) →
      selectLoop labels (.line (some i) :: rest)
        = (.selected (labels.getD (i - 1).toNat 0), []))
    ∧ (i < 1 ∨ (labels.length : Int) < i →
      selectLoop labels (.line (some i) :: rest)
        = ((selectLoop labels rest).1, .invalidOption :: (selectLoop labels rest).2))
    ∧ selectLoop labels (.line none :: rest)
        = ((selectLoop labels rest).1, .invalidNumber :: (selectLoop labels rest).2) := by
  refine ⟨?_, ?_, ?_⟩
  · intro h1 h2
    simp only [selectLoop]
    rw [if_pos ⟨by omega, by omega⟩]
  · intro h
    simp only [selectLoop]
    rw [if_neg (by omega)]
  · simp only [selectLoop]

/-- Witness for `select_resolution_ordinal_spec` at the two-element menu
`[1080, 720]`: ordinal 2 selects 720, ordinal 3 re-prompts with the
out-of-range message, a malformed line re-prompts with the number message. -/
theorem select_resolution_ordinal_spec_witness :
    selectLoop [1080, 720] [.line (some 2)] = (.selected 720, [])
    ∧ selectLoop [1080, 720] [.line (some 3)]
        = ((selectLoop [1080, 720] []).1, .invalidOption :: (selectLoop [1080, 720] []).2)
    ∧ selectLoop [1080, 720] [.line none]
        = ((selectLoop [1080, 720] []).1, .invalidNumber :: (selectLoop [1080, 720] []).2) :=
  ⟨(select_resolution_ordinal_spec [1080, 720] 2 []).1 (by decide) (by decide),
   (select_resolution_ordinal_spec [1080, 720] 3 []).2.1 (by decide),
   (select_resolution_ordinal_spec [1080, 720] 0 []).2.2⟩

theorem selectLoop_selected_mem :
    ∀ (labels : List Nat) (inputs : List UserInput) (r : Nat),
      (selectLoop labels inputs).1 = .selected r → r ∈ labels
  | _, [], _ => by intro h; exact absurd h (by simp [selectLoop])
  | labels, .interrupt :: rest, r => by
    intro h; exact absurd h (by simp [selectLoop])
  | labels, .line none :: rest, r => by
    intro h
    exact selectLoop_selected_mem labels rest r h
  | labels, .line (some i) :: rest, r => by
    intro h
    simp only [selectLoop] at h
    by_cases hc : 0 ≤ i - 1 ∧ i - 1 < (labels.length : Int)
    · rw [if_pos hc] at h
      have hr : labels.getD (i - 1).toNat 0 = r := by
        simpa using h
      have hlt : (i - 1).toNat < labels.length := by omega
      rw [← hr, List.getD_eq_getElem?_getD, List.getElem?_eq_getElem hlt]
      exact List.getElem_mem hlt
    · rw [if_neg hc] at h
      exact selectLoop_selected_mem labels rest r h

theorem selectLoop_nil_exhausted :
    ∀ inputs : List UserInput, (∀ inp ∈ inputs, inp ≠ .interrupt) →
      (selectLoop [] inputs).1 = .exhausted
  | [], _ => rfl
  | .interrupt :: rest, h =>
    absurd rfl (h .interrupt (List.mem_cons_self _ _))
  | .line none :: rest, h =>
    selectLoop_nil_exhausted rest fun inp hi => h inp (List.mem_cons_of_mem _ hi)
  | .line (some i) :: rest, h => by
    simp only [selectLoop]
    rw [if_neg (by simp)]
    exact selectLoop_nil_exhausted rest fun inp hi => h inp (List.mem_cons_of_mem _ hi)

/-- Claim C10: the selection loop only ever returns a member of the presented
menu (in particular ordinals at or below 0 never index from the end of the
list), and when the menu is empty it never returns: every non-interrupt input
re-prompts and the loop is still running after any finite input sequence. -/
theorem select_resolution_returns_member :
    (∀ (labels : List Nat) (inputs : List UserInput) (r : Nat),
        (selectLoop labels inputs).1 = .selected r → r ∈ labels)
    ∧ (∀ (inputs : List UserInput) (r : Nat),
        (selectLoop [] inputs).1 ≠ .selected r)
    ∧ (∀ inputs : List UserInput, (∀ inp ∈ inputs, inp ≠ .interrupt) →
        (selectLoop [] inputs).1 = .exhausted) := by
  refine ⟨selectLoop_selected_mem, ?_, selectLoop_nil_exhausted⟩
  intro inputs r h
  exact absurd (selectLoop_selected_mem [] inputs r h) (List.not_mem_nil r)

/-- Witness for `select_resolution_returns_member`: a concrete selection is a
member of its menu, and on the empty menu a concrete input stream selects
nothing and leaves the loop running. -/
theorem select_resolution_returns_member_witness :
    720 ∈ [1080, 720]
    ∧ (selectLoop [] [.line (some 1), .line none]).1 ≠ .selected 720
    ∧ (selectLoop [] [.line (some 1), .line none]).1 = .exhausted :=
  ⟨select_resolution_returns_member.1 [1080, 720] [.line (some 2)] 720 (by decide),
   select_resolution_returns_member.2.1 [.line (some 1), .line none] 720,
   select_resolution_returns_member.2.2 [.line (some 1), .line none] (by decide)⟩

/-- Claim C3: the audio descriptor choice is independent of the chosen video
resolution label, and any selected audio descriptor is audio-only,
mp4-compatible, and of maximal bitrate among all such descriptors. -/
theorem audio_descriptor_max_bitrate (ds : List StreamDesc) (res1 res2 : Nat) :
    (resolveDescriptors ds res1).2 = (resolveDescriptors ds res2).2
    ∧ ∀ a, (resolveDescriptors ds res1).2 = some a →
        a.only_audio = true ∧ a.file_extension = "mp4" ∧
        ∀ d ∈ ds, d.only_audio = true → d.file_extension = "mp4" →
          ∀ b, d.abr = some b → b ≤ abrVal a := by
  refine ⟨rfl, ?_⟩
  intro a ha
  have ha' : ((List.insertionSort abrLe (audioCandidates ds)).reverse).head? = some a := ha
  match hL : (List.insertionSort abrLe (audioCandidates ds)).reverse with
  | [] => rw [hL] at ha'; exact absurd ha' (by simp)
  | a' :: t =>
    rw [hL] at ha'
    have haa : a' = a := by simpa using ha'
    subst haa
    have hmemL : a' ∈ List.insertionSort abrLe (audioCandidates ds) := by
      rw [← List.mem_reverse, hL]; exact List.mem_cons_self _ _
    have hmemC : a' ∈ audioCandidates ds := by
      rwa [List.mem_insertionSort] at hmemL
    have hfacts : a'.only_audio = true ∧ a'.file_extension = "mp4" := by
      rw [audioCandidates] at hmemC
      have h1 := (List.mem_filter.mp hmemC).1
      have h2 := (List.mem_filter.mp h1).2
      simp only [Bool.and_eq_true, beq_iff_eq] at h2
      exact h2
    refine ⟨hfacts.1, hfacts.2, ?_⟩
    intro d hd hda hdm b hb
    have hdC : d ∈ audioCandidates ds := by
      rw [audioCandidates]
      refine List.mem_filter.mpr ⟨List.mem_filter.mpr ⟨hd, ?_⟩, ?_⟩
      · simp [hda, hdm]
      · simp [hb]
    have hdL : d ∈ a' :: t := by
      rw [← hL, List.mem_reverse, List.mem_insertionSort]
      exact hdC
    have hbv : abrVal d = b := by simp [abrVal, hb]
    rcases List.mem_cons.mp hdL with rfl | hdt
    · exact le_of_eq hbv.symm
    · have hpair : (a' :: t).Pairwise (fun x y => abrLe y x) := by
        rw [← hL, List.pairwise_reverse]
        exact List.sorted_insertionSort abrLe _
      have := List.rel_of_pairwise_cons hpair hdt
      rw [← hbv]
      exact this

/-- Witness for `audio_descriptor_max_bitrate` on `dsExample`: the audio
descriptor is the same whether 1080 or 720 was chosen, and it is the 256kbps
one, which dominates the 128kbps stream. -/
theorem audio_descriptor_max_bitrate_witness :
    (resolveDescriptors dsExample 1080).2 = (resolveDescriptors dsExample 720).2
    ∧ (audioExample.only_audio = true ∧ audioExample.file_extension = "mp4" ∧
        ∀ d ∈ dsExample, d.only_audio = true → d.file_extension = "mp4" →
          ∀ b, d.abr = some b → b ≤ abrVal audioExample) :=
  ⟨(audio_descriptor_max_bitrate dsExample 1080 720).1,
   (audio_descriptor_max_bitrate dsExample 1080 720).2 audioExample (by decide)⟩

theorem mem_fsInsert_self (p : FPath) (fs : List FPath) : p ∈ fsInsert p fs := by
  rw [fsInsert]
  split
  · assumption
  · exact List.mem_cons_self _ _

theorem mem_fsInsert_of_mem {p : FPath} (q : FPath) {fs : List FPath}
    (h : p ∈ fs) : p ∈ fsInsert q fs := by
  rw [fsInsert]
  split
  · exact h
  · exact List.mem_cons_of_mem _ h

theorem not_mem_fsErase_self (p : FPath) (fs : List FPath) : p ∉ fsErase p fs := by
  rw [fsErase]
  intro hc
  have := (List.mem_filter.mp hc).2
  simp at this

theorem not_mem_fsErase_of_not_mem {p : FPath} (q : FPath) {fs : List FPath}
    (h : p ∉ fs) : p ∉ fsErase q fs :=
  fun hc => h (List.mem_filter.mp hc).1

theorem slugChar_safe {c c' : Char} (h : slugChar c = some c') : safeChar c' := by
  rw [slugChar] at h
  split at h
  · rename_i hcond
    cases h
    rcases hcond with h1 | h1
    · exact Or.inl h1
    · exact Or.inr (Or.inl h1)
  · cases hfind : upperLower.find? (fun p => p.1 == c) with
    | none => rw [hfind] at h; cases h
    | some pr =>
      rw [hfind] at h
      cases h
      have hmem : pr ∈ upperLower := List.mem_of_find?_eq_some hfind
      have hall : ∀ p ∈ upperLower, safeChar p.2 := by decide
      exact hall pr hmem

theorem splitSep_chars :
    ∀ (l : List (Option Char)) (w : List Char) (c : Char),
      w ∈ splitSep l → c ∈ w → some c ∈ l
  | [], w, c, hw, hc => by
    simp only [splitSep, List.mem_singleton] at hw
    subst hw
    cases hc
  | none :: rest, w, c, hw, hc => by
    simp only [splitSep] at hw
    rcases List.mem_cons.mp hw with rfl | hw'
    · cases hc
    · exact List.mem_cons_of_mem _ (splitSep_chars rest w c hw' hc)
  | some c0 :: rest, w, c, hw, hc => by
    simp only [splitSep] at hw
    cases hrec : splitSep rest with
    | nil =>
      rw [hrec] at hw
      rcases List.mem_cons.mp hw with rfl | hw'
      · rcases List.mem_cons.mp hc with rfl | hc'
        · exact List.mem_cons_self _ _
        · cases hc'
      · cases hw'
    | cons w0 ws =>
      rw [hrec] at hw
      rcases List.mem_cons.mp hw with rfl | hw'
      · rcases List.mem_cons.mp hc with rfl | hc'
        · exact List.mem_cons_self _ _
        · exact List.mem_cons_of_mem _
            (splitSep_chars rest w0 c (by rw [hrec]; exact List.mem_cons_self _ _) hc')
      · exact List.mem_cons_of_mem _
          (splitSep_chars rest w c (by rw [hrec]; exact List.mem_cons_of_mem _ hw') hc)

theorem joinDash_chars :
    ∀ (ws : List (List Char)) (c : Char), c ∈ joinDash ws →
      c = '-' ∨ ∃ w ∈ ws, c ∈ w
  | [], c, hc => by cases hc
  | [w], c, hc => by
    simp only [joinDash] at hc
    exact Or.inr ⟨w, List.mem_singleton.mpr rfl, hc⟩
  | w :: w2 :: ws, c, hc => by
    simp only [joinDash] at hc
    rcases List.mem_append.mp hc with h | h
    · exact Or.inr ⟨w, List.mem_cons_self _ _, h⟩
    · rcases List.mem_cons.mp h with rfl | h'
      · exact Or.inl rfl
      · rcases joinDash_chars (w2 :: ws) c h' with h'' | ⟨w', hw', hc'⟩
        · exact Or.inl h''
        · exact Or.inr ⟨w', List.mem_cons_of_mem _ hw', hc'⟩

theorem slugifyChars_safe (s : List Char) : ∀ c ∈ slugifyChars s, safeChar c := by
  intro c hc
  rw [slugifyChars] at hc
  rcases joinDash_chars _ c hc with rfl | ⟨w, hw, hcw⟩
  · exact Or.inr (Or.inr rfl)
  · have hw' : w ∈ splitSep (s.map slugChar) := (List.mem_filter.mp hw).1
    have hsome : some c ∈ s.map slugChar := splitSep_chars _ w c hw' hcw
    rcases List.mem_map.mp hsome with ⟨c0, _, hc0⟩
    exact slugChar_safe hc0

theorem ne_of_getElem4 {A B X Y : List Char}
    (hA : A[4]? = some 'p') (hB : B[4]? = some 'o')
    (h4A : 4 < A.length) (h4B : 4 < B.length) :
    A ++ X ≠ B ++ Y := by
  intro h
  have hidx : (A ++ X)[4]? = (B ++ Y)[4]? := by rw [h]
  rw [List.getElem?_append, List.getElem?_append, if_pos h4A, if_pos h4B, hA, hB] at hidx
  cases hidx

theorem outputFileName_reverse (t : List Char) (r : Nat) :
    (outputFileName t r).reverse
      = "4pm.p".data ++ (slugifyChars t ++ '_' :: Nat.toDigits 10 r).reverse := by
  have hshape : outputFileName t r
      = (slugifyChars t ++ '_' :: Nat.toDigits 10 r) ++ "p.mp4".data := by
    rw [outputFileName, resLabelChars]
    simp
  rw [hshape, List.reverse_append]
  rfl

theorem videoTempName_reverse (v : List Char) :
    (videoTempName v).reverse = "4pm.oediv_".data ++ v.reverse := by
  rw [videoTempName, List.reverse_append]
  rfl

theorem audioTempName_reverse (v : List Char) :
    (audioTempName v).reverse = "4pm.oidua_".data ++ v.reverse := by
  rw [audioTempName, List.reverse_append]
  rfl

theorem outputFileName_ne_videoTempName (t : List Char) (r : Nat) (v : List Char) :
    outputFileName t r ≠ videoTempName v := by
  intro h
  have hrev : (outputFileName t r).reverse = (videoTempName v).reverse := by rw [h]
  rw [outputFileName_reverse, videoTempName_reverse] at hrev
  exact ne_of_getElem4 (by decide) (by decide) (by decide) (by decide) hrev

theorem outputFileName_ne_audioTempName (t : List Char) (r : Nat) (v : List Char) :
    outputFileName t r ≠ audioTempName v := by
  intro h
  have hrev : (outputFileName t r).reverse = (audioTempName v).reverse := by rw [h]
  rw [outputFileName_reverse, audioTempName_reverse] at hrev
  exact ne_of_getElem4 (by decide) (by decide) (by decide) (by decide) hrev

/-- Claim C9: the output filename is a pure function of the pair (slugified
title, resolution label); its normalized-title component contains only safe
filesystem characters (lowercase letters, digits, dashes); and the full
output path never collides with either temporary artifact path. -/
theorem output_filename_spec :
    (∀ (t1 t2 : List Char) (r : Nat), slugifyChars t1 = slugifyChars t2 →
        outputFileName t1 r = outputFileName t2 r)
    ∧ (∀ t : List Char, ∀ c ∈ slugifyChars t, safeChar c)
    ∧ (∀ (t : List Char) (r : Nat) (v dir : List Char),
        outputFilePath dir t r ≠ videoTempPath dir v
        ∧ outputFilePath dir t r ≠ audioTempPath dir v) := by
  refine ⟨?_, slugifyChars_safe, ?_⟩
  · intro t1 t2 r h
    rw [outputFileName, outputFileName, h]
  · intro t r v dir
    constructor
    · intro h
      rw [outputFilePath, videoTempPath, joinPath, joinPath] at h
      have h1 : '/' :: outputFileName t r = '/' :: videoTempName v :=
        List.append_cancel_left h
      have h2 : outputFileName t r = videoTempName v := by injection h1
      exact outputFileName_ne_videoTempName t r v h2
    · intro h
      rw [outputFilePath, audioTempPath, joinPath, joinPath] at h
      have h1 : '/' :: outputFileName t r = '/' :: audioTempName v :=
        List.append_cancel_left h
      have h2 : outputFileName t r = audioTempName v := by injection h1
      exact outputFileName_ne_audioTempName t r v h2

/-- Witness for `output_filename_spec` at a concrete title, resolution,
video id and directory. -/
theorem output_filename_spec_witness :
    outputFileName "My Video".data 720 = outputFileName "My Video".data 720
    ∧ outputFilePath "d".data "My Video".data 720 ≠ videoTempPath "d".data "abc".data
    ∧ outputFilePath "d".data "My Video".data 720 ≠ audioTempPath "d".data "abc".data :=
  ⟨output_filename_spec.1 "My Video".data "My Video".data 720 rfl,
   (output_filename_spec.2.2 "My Video".data 720 "abc".data "d".data).1,
   (output_filename_spec.2.2 "My Video".data 720 "abc".data "d".data).2⟩

/-- Claim C5: whenever the run reports success, it finished normally and
both temporary artifact paths are absent from the final filesystem; a
fault-free run produces exactly the event order download, download, merge
message, mux, remove, remove, success messages (so both deletions precede
the success report); and a run failing at or before the mux stage exits 1
leaving every temporary artifact created so far on disk, attempting no
removal. -/
theorem temp_artifact_cleanup (yt_title yt_video_id : FPath) (res : Nat)
    (destino : FPath) (env : MuxEnv) (fs0 : List FPath)
    (hni : env.interrupt = none) :
    (Event.printMsg .downloadSuccess
        ∈ (download_and_merge yt_title yt_video_id res destino env fs0).events →
      (download_and_merge yt_title yt_video_id res destino env fs0).term = .finished
      ∧ videoTempPath destino yt_video_id
          ∉ (download_and_merge yt_title yt_video_id res destino env fs0).fs
      ∧ audioTempPath destino yt_video_id
          ∉ (download_and_merge yt_title yt_video_id res destino env fs0).fs)
    ∧ (env.videoOk = true → env.audioOk = true → env.ffmpegReturncode = 0 →
       env.removeVideoOk = true → env.removeAudioOk = true →
      (download_and_merge yt_title yt_video_id res destino env fs0).events
        = [.download (videoTempPath destino yt_video_id),
           .download (audioTempPath destino yt_video_id),
           .printMsg .mergingFiles,
           .muxCall (ffmpegCmd (videoTempPath destino yt_video_id)
             (audioTempPath destino yt_video_id) (outputFilePath destino yt_title res)),
           .removeCall (videoTempPath destino yt_video_id),
           .removeCall (audioTempPath destino yt_video_id),
           .printMsg .downloadSuccess,
           .printMsg (.savedAt (outputFilePath destino yt_title res))])
    ∧ (env.videoOk = false →
      (download_and_merge yt_title yt_video_id res destino env fs0).term = .exited 1
      ∧ (download_and_merge yt_title yt_video_id res destino env fs0).fs = fs0)
    ∧ (env.videoOk = true → env.audioOk = false →
      (download_and_merge yt_title yt_video_id res destino env fs0).term = .exited 1
      ∧ videoTempPath destino yt_video_id
          ∈ (download_and_merge yt_title yt_video_id res destino env fs0).fs)
    ∧ (env.videoOk = true → env.audioOk = true → env.ffmpegReturncode ≠ 0 →
      (download_and_merge yt_title yt_video_id res destino env fs0).term = .exited 1
      ∧ videoTempPath destino yt_video_id
          ∈ (download_and_merge yt_title yt_video_id res destino env fs0).fs
      ∧ audioTempPath destino yt_video_id
          ∈ (download_and_merge yt_title yt_video_id res destino env fs0).fs
      ∧ ∀ p, Event.removeCall p
          ∉ (download_and_merge yt_title yt_video_id res destino env fs0).events) := by
  refine ⟨?_, ?_, ?_, ?_, ?_⟩
  · intro hmem
    by_cases hv : env.videoOk = true
    · by_cases ha : env.audioOk = true
      · by_cases hf : env.ffmpegReturncode = 0
        · by_cases hrv : env.removeVideoOk = true
          · by_cases hra : env.removeAudioOk = true
            · refine ⟨?_, ?_, ?_⟩
              · simp [download_and_merge, dmBody, hni, hv, ha, hf, hrv, hra]
              · simp only [download_and_merge, dmBody, hni, hv, ha, hf, hrv, hra]
                simp only [reduceCtorEq, if_false, ite_false, if_neg, not_false_iff]
                simp
                exact not_mem_fsErase_of_not_mem _ (not_mem_fsErase_self _ _)
              · simp only [download_and_merge, dmBody, hni, hv, ha, hf, hrv, hra]
                simp
                exact not_mem_fsErase_self _ _
            · simp only [Bool.not_eq_true] at hra
              simp [download_and_merge, dmBody, PyExc.isException, hni, hv, ha, hf, hrv, hra] at hmem
          · simp only [Bool.not_eq_true] at hrv
            simp [download_and_merge, dmBody, PyExc.isException, hni, hv, ha, hf, hrv] at hmem
        · simp [download_and_merge, dmBody, PyExc.isException, hni, hv, ha, hf] at hmem
      · simp only [Bool.not_eq_true] at ha
        simp [download_and_merge, dmBody, PyExc.isException, hni, hv, ha] at hmem
    · simp only [Bool.not_eq_true] at hv
      simp [download_and_merge, dmBody, PyExc.isException, hni, hv] at hmem
  · intro hv ha hf hrv hra
    simp [download_and_merge, dmBody, hni, hv, ha, hf, hrv, hra]
  · intro hv
    simp [download_and_merge, dmBody, PyExc.isException, hni, hv]
  · intro hv ha
    refine ⟨?_, ?_⟩
    · simp [download_and_merge, dmBody, PyExc.isException, hni, hv, ha]
    · simp only [download_and_merge, dmBody, hni, hv, ha]
      simp
      exact mem_fsInsert_self _ _
  · intro hv ha hf
    refine ⟨?_, ?_, ?_, ?_⟩
    · simp [download_and_merge, dmBody, PyExc.isException, hni, hv, ha, hf]
    · simp only [download_and_merge, dmBody, hni, hv, ha]
      simp [hf]
      exact mem_fsInsert_of_mem _ (mem_fsInsert_self _ _)
    · simp only [download_and_merge, dmBody, hni, hv, ha]
      simp [hf]
      exact mem_fsInsert_self _ _
    · intro p
      simp [download_and_merge, dmBody, PyExc.isException, hni, hv, ha, hf]

/-- Witness for `temp_artifact_cleanup`: a concrete fault-free run reports
success, finishes, and leaves neither temporary artifact on disk. -/
theorem temp_artifact_cleanup_witness :
    (download_and_merge "My Video".data "abc".data 720 "d".data envOk []).term = .finished
    ∧ videoTempPath "d".data "abc".data
        ∉ (download_and_merge "My Video".data "abc".data 720 "d".data envOk []).fs
    ∧ audioTempPath "d".data "abc".data
        ∉ (download_and_merge "My Video".data "abc".data 720 "d".data envOk []).fs :=
  (temp_artifact_cleanup "My Video".data "abc".data 720 "d".data envOk [] rfl).1
    (by decide)

/-- Counterexample to claim C6 as stated: in a run where ffmpeg exits 1 with
`boom` on its captured stderr, no console output of the run contains the
diagnostic text `boom` — `str(CalledProcessError)` names only the command
and the exit status, so the captured output is not surfaced. -/
theorem mux_diagnostics_not_surfaced :
    (download_and_merge "My Video".data "abc".data 720 "d".data envMuxFail []).term
      = .exited 1
    ∧ ((download_and_merge "My Video".data "abc".data 720 "d".data envMuxFail
        []).events.all fun ev => !containsChars (eventText ev) "boom".data) = true := by
  constructor
  · decide
  · set_option maxRecDepth 10000 in decide

/-- Claim C6 (amended): a non-zero ffmpeg exit status is fatal — the run
exits 1 after printing the `CalledProcessError` text, which names the command
and the exit status but is independent of the captured stdout/stderr (the
captured diagnostics are not included in the message); on a zero exit status
the captured output is never shown, the events being exactly the success
sequence. -/
theorem mux_exit_status_checked (yt_title yt_video_id : FPath) (res : Nat)
    (destino : FPath) (fs0 : List FPath) :
    (∀ env : MuxEnv, env.interrupt = none → env.videoOk = true →
        env.audioOk = true → env.ffmpegReturncode ≠ 0 →
      (download_and_merge yt_title yt_video_id res destino env fs0).term = .exited 1
      ∧ Event.printMsg (.errorDuring (PyExc.str (.calledProcessError
          (ffmpegCmd (videoTempPath destino yt_video_id)
            (audioTempPath destino yt_video_id) (outputFilePath destino yt_title res))
          env.ffmpegReturncode env.ffmpegStdout env.ffmpegStderr)))
        ∈ (download_and_merge yt_title yt_video_id res destino env fs0).events)
    ∧ (∀ (cmd : List FPath) (code : Nat) (o e o' e' : FPath),
        PyExc.str (.calledProcessError cmd code o e)
          = PyExc.str (.calledProcessError cmd code o' e'))
    ∧ (∀ env : MuxEnv, env.interrupt = none → env.videoOk = true →
        env.audioOk = true → env.ffmpegReturncode = 0 →
        env.removeVideoOk = true → env.removeAudioOk = true →
      (download_and_merge yt_title yt_video_id res destino env fs0).events
        = [.download (videoTempPath destino yt_video_id),
           .download (audioTempPath destino yt_video_id),
           .printMsg .mergingFiles,
           .muxCall (ffmpegCmd (videoTempPath destino yt_video_id)
             (audioTempPath destino yt_video_id) (outputFilePath destino yt_title res)),
           .removeCall (videoTempPath destino yt_video_id),
           .removeCall (audioTempPath destino yt_video_id),
           .printMsg .downloadSuccess,
           .printMsg (.savedAt (outputFilePath destino yt_title res))]) := by
  refine ⟨?_, ?_, ?_⟩
  · intro env hni hv ha hf
    constructor
    · simp [download_and_merge, dmBody, PyExc.isException, hni, hv, ha, hf]
    · simp [download_and_merge, dmBody, PyExc.isException, hni, hv, ha, hf]
  · intro cmd code o e o' e'
    rfl
  · intro env hni hv ha hf hrv hra
    simp [download_and_merge, dmBody, hni, hv, ha, hf, hrv, hra]

/-- Witness for `mux_exit_status_checked`: the concrete failing-mux run
exits 1 and prints the process-error message. -/
theorem mux_exit_status_checked_witness :
    (download_and_merge "My Video".data "abc".data 720 "d".data envMuxFail []).term
      = .exited 1
    ∧ PyExc.str (.calledProcessError ["ffmpeg".data] 1 "out".data "err".data)
        = PyExc.str (.calledProcessError ["ffmpeg".data] 1 [] []) :=
  ⟨((mux_exit_status_checked "My Video".data "abc".data 720 "d".data []).1
      envMuxFail rfl rfl rfl (by decide)).1,
   (mux_exit_status_checked "My Video".data "abc".data 720 "d".data []).2.1
     ["ffmpeg".data] 1 "out".data "err".data [] []⟩

/-- Counterexample to claim C7 as stated: in a run whose mux succeeded but
whose video-temporary deletion fails, the run does not report success and
exits 1 rather than 0. -/
theorem cleanup_failure_not_reported_success :
    (download_and_merge "My Video".data "abc".data 720 "d".data envRemoveFail []).term
      = .exited 1
    ∧ Event.printMsg .downloadSuccess
        ∉ (download_and_merge "My Video".data "abc".data 720 "d".data
            envRemoveFail []).events := by
  constructor
  · decide
  · decide

/-- Claim C7 (amended): a failure to delete a temporary artifact after a
successful mux is caught by the same generic handler as every other error —
the run prints the `OSError` text and exits 1, reporting failure even though
the muxed output file exists on disk (and both temporaries remain). -/
theorem cleanup_failure_fatal (yt_title yt_video_id : FPath) (res : Nat)
    (destino : FPath) (env : MuxEnv) (fs0 : List FPath)
    (hni : env.interrupt = none) (hv : env.videoOk = true) (ha : env.audioOk = true)
    (hf : env.ffmpegReturncode = 0) (hrv : env.removeVideoOk = false) :
    (download_and_merge yt_title yt_video_id res destino env fs0).term = .exited 1
    ∧ Event.printMsg (.errorDuring (PyExc.str
        (.osError (videoTempPath destino yt_video_id))))
      ∈ (download_and_merge yt_title yt_video_id res destino env fs0).events
    ∧ outputFilePath destino yt_title res
      ∈ (download_and_merge yt_title yt_video_id res destino env fs0).fs
    ∧ videoTempPath destino yt_video_id
      ∈ (download_and_merge yt_title yt_video_id res destino env fs0).fs
    ∧ audioTempPath destino yt_video_id
      ∈ (download_and_merge yt_title yt_video_id res destino env fs0).fs
    ∧ Event.printMsg .downloadSuccess
      ∉ (download_and_merge yt_title yt_video_id res destino env fs0).events := by
  refine ⟨?_, ?_, ?_, ?_, ?_, ?_⟩
  · simp [download_and_merge, dmBody, PyExc.isException, hni, hv, ha, hf, hrv]
  · simp [download_and_merge, dmBody, PyExc.isException, hni, hv, ha, hf, hrv]
  · simp only [download_and_merge, dmBody, hni, hv, ha, hf, hrv]
    simp
    exact mem_fsInsert_self _ _
  · simp only [download_and_merge, dmBody, hni, hv, ha, hf, hrv]
    simp
    exact mem_fsInsert_of_mem _ (mem_fsInsert_of_mem _ (mem_fsInsert_self _ _))
  · simp only [download_and_merge, dmBody, hni, hv, ha, hf, hrv]
    simp
    exact mem_fsInsert_of_mem _ (mem_fsInsert_self _ _)
  · simp [download_and_merge, dmBody, PyExc.isException, hni, hv, ha, hf, hrv]

/-- Witness for `cleanup_failure_fatal` at a concrete run. -/
theorem cleanup_failure_fatal_witness :
    (download_and_merge "My Video".data "abc".data 720 "d".data envRemoveFail []).term
      = .exited 1
    ∧ outputFilePath "d".data "My Video".data 720
        ∈ (download_and_merge "My Video".data "abc".data 720 "d".data
            envRemoveFail []).fs :=
  ⟨(cleanup_failure_fatal "My Video".data "abc".data 720 "d".data envRemoveFail []
      rfl rfl rfl rfl rfl).1,
   (cleanup_failure_fatal "My Video".data "abc".data 720 "d".data envRemoveFail []
      rfl rfl rfl rfl rfl).2.2.1⟩

/-- Claim C8: a `KeyboardInterrupt`, whether delivered while the selection
loop waits for input or at any stage of an otherwise fault-free
download/mux run, propagates to the `__main__` handler, which prints the
cancellation message and exits 0; the handler performs no filesystem action,
so the final filesystem is exactly what the interrupted run had written. -/
theorem interrupt_clean_exit (ds : List StreamDesc)
    (yt_title yt_video_id destino : FPath) (inputs : List UserInput)
    (env : MuxEnv) (fs0 : List FPath) :
    ((selectLoop (availableResolutions ds) inputs).1 = .interrupted →
      (mainProgram ds yt_title yt_video_id destino inputs env fs0).term = .exited 0
      ∧ Event.printMsg .cancelled
          ∈ (mainProgram ds yt_title yt_video_id destino inputs env fs0).events
      ∧ (mainProgram ds yt_title yt_video_id destino inputs env fs0).fs = fs0)
    ∧ (∀ s : DMStage, env.interrupt = some s →
        env.videoOk = true → env.audioOk = true → env.ffmpegReturncode = 0 →
        env.removeVideoOk = true → env.removeAudioOk = true →
        ∀ (res : Nat) (vs a : StreamDesc),
          (selectLoop (availableResolutions ds) inputs).1 = .selected res →
          videoFor ds res = some vs → selectAudio ds = some a →
          (mainProgram ds yt_title yt_video_id destino inputs env fs0).term = .exited 0
          ∧ Event.printMsg .cancelled
              ∈ (mainProgram ds yt_title yt_video_id destino inputs env fs0).events
          ∧ (mainProgram ds yt_title yt_video_id destino inputs env fs0).fs
              = fsAtStage (videoTempPath destino yt_video_id)
                  (audioTempPath destino yt_video_id)
                  (outputFilePath destino yt_title (resVal vs)) fs0 s) := by
  constructor
  · intro hsel
    refine ⟨?_, ?_, ?_⟩ <;> simp [mainProgram, mainAfterInfo, hsel]
  · intro s hint hv ha hf hrv hra res vs a hsel hvf hsa
    cases s <;>
      refine ⟨?_, ?_, ?_⟩ <;>
        simp [mainProgram, mainAfterInfo, download_and_merge, dmBody,
          PyExc.isException, hsel, hvf, hsa, hint, hv, ha, hf, hrv, hra, fsAtStage]

/-- Witness for `interrupt_clean_exit`: an interrupt delivered at the
selection prompt of a concrete run exits 0 with the cancellation message and
an untouched filesystem. -/
theorem interrupt_clean_exit_witness :
    (mainProgram dsExample "My Video".data "abc".data "d".data [.interrupt]
        envOk []).term = .exited 0
    ∧ Event.printMsg .cancelled
        ∈ (mainProgram dsExample "My Video".data "abc".data "d".data [.interrupt]
            envOk []).events
    ∧ (mainProgram dsExample "My Video".data "abc".data "d".data [.interrupt]
        envOk []).fs = ([] : List FPath) :=
  (interrupt_clean_exit dsExample "My Video".data "abc".data "d".data [.interrupt]
    envOk []).1 (by decide)

theorem selectLoop_msgs :
    ∀ (labels : List Nat) (inputs : List UserInput) (m : Msg),
      m ∈ (selectLoop labels inputs).2 → m = .invalidOption ∨ m = .invalidNumber
  | _, [], _, h => by simp [selectLoop] at h
  | _, .interrupt :: _, _, h => by simp [selectLoop] at h
  | labels, .line none :: rest, m, h => by
    simp only [selectLoop] at h
    rcases List.mem_cons.mp h with rfl | h'
    · exact Or.inr rfl
    · exact selectLoop_msgs labels rest m h'
  | labels, .line (some i) :: rest, m, h => by
    simp only [selectLoop] at h
    by_cases hc : 0 ≤ i - 1 ∧ i - 1 < (labels.length : Int)
    · rw [if_pos hc] at h
      simp at h
    · rw [if_neg hc] at h
      rcases List.mem_cons.mp h with rfl | h'
      · exact Or.inl rfl
      · exact selectLoop_msgs labels rest m h'

/-- Claim C4 (amended): when the selection loop does return a label and the
matching video descriptor or the audio descriptor is absent, `main` prints
the streams-not-found message and exits 1 before any retrieval or mux
attempt, leaving the filesystem untouched; for the empty descriptor
collection, however, the run never reaches that check — the selection menu
is empty, so every modeled input re-prompts, no streams-unavailable failure
is reported, and no filesystem write occurs. -/
theorem streams_unavailable_guard (ds : List StreamDesc)
    (yt_title yt_video_id destino : FPath) (env : MuxEnv) (fs0 : List FPath) :
    (∀ (inputs : List UserInput) (res : Nat),
        (selectLoop (availableResolutions ds) inputs).1 = .selected res →
        videoFor ds res = none ∨ selectAudio ds = none →
      (mainAfterInfo ds yt_title yt_video_id destino inputs env fs0).term = .exited 1
      ∧ (mainAfterInfo ds yt_title yt_video_id destino inputs env fs0).fs = fs0
      ∧ Event.printMsg .streamsNotFound
          ∈ (mainAfterInfo ds yt_title yt_video_id destino inputs env fs0).events
      ∧ (∀ p, Event.download p
          ∉ (mainAfterInfo ds yt_title yt_video_id destino inputs env fs0).events)
      ∧ (∀ c, Event.muxCall c
          ∉ (mainAfterInfo ds yt_title yt_video_id destino inputs env fs0).events))
    ∧ (∀ inputs : List UserInput, (∀ inp ∈ inputs, inp ≠ .interrupt) →
      (mainAfterInfo [] yt_title yt_video_id destino inputs env fs0).term = .outOfInputs
      ∧ (mainAfterInfo [] yt_title yt_video_id destino inputs env fs0).fs = fs0
      ∧ Event.printMsg .streamsNotFound
          ∉ (mainAfterInfo [] yt_title yt_video_id destino inputs env fs0).events
      ∧ ∀ p, Event.download p
          ∉ (mainAfterInfo [] yt_title yt_video_id destino inputs env fs0).events) := by
  constructor
  · intro inputs res hsel habs
    have hcase : mainAfterInfo ds yt_title yt_video_id destino inputs env fs0
        = ⟨fs0, ((selectLoop (availableResolutions ds) inputs).2.map Event.printMsg)
            ++ [.printMsg .streamsNotFound], .exited 1⟩ := by
      rcases h1 : videoFor ds res with _ | vs
      · cases h2 : selectAudio ds <;> simp [mainAfterInfo, hsel, h1, h2]
      · rcases habs with hx | hx
        · rw [h1] at hx; cases hx
        · simp [mainAfterInfo, hsel, h1, hx]
    rw [hcase]
    refine ⟨rfl, rfl, ?_, ?_, ?_⟩
    · simp
    · intro p; simp
    · intro c; simp
  · intro inputs hno
    have hav : availableResolutions ([] : List StreamDesc) = [] := rfl
    have hexh : (selectLoop (availableResolutions ([] : List StreamDesc)) inputs).1
        = .exhausted := by
      rw [hav]; exact selectLoop_nil_exhausted inputs hno
    refine ⟨?_, ?_, ?_, ?_⟩
    · simp [mainAfterInfo, hexh]
    · simp [mainAfterInfo, hexh]
    · simp only [mainAfterInfo, hexh]
      intro hmem
      simp only [List.mem_map] at hmem
      rcases hmem with ⟨m, hm, hEq⟩
      have : m = Msg.streamsNotFound := by injection hEq
      subst this
      rcases selectLoop_msgs _ inputs _ hm with h | h <;> cases h
    · intro p
      simp [mainAfterInfo, hexh]

/-- Witness for `streams_unavailable_guard`: with one 720p video stream and
no audio stream, choosing ordinal 1 selects 720 and the run fails with the
streams-not-found message. -/
theorem streams_unavailable_guard_witness :
    (mainAfterInfo dsNoAudio "My Video".data "abc".data "d".data
        [.line (some 1)] envOk []).term = .exited 1
    ∧ Event.printMsg .streamsNotFound
        ∈ (mainAfterInfo dsNoAudio "My Video".data "abc".data "d".data
            [.line (some 1)] envOk []).events :=
  ⟨((streams_unavailable_guard dsNoAudio "My Video".data "abc".data "d".data envOk
      []).1 [.line (some 1)] 720 (by decide) (Or.inr (by decide))).1,
   ((streams_unavailable_guard dsNoAudio "My Video".data "abc".data "d".data envOk
      []).1 [.line (some 1)] 720 (by decide) (Or.inr (by decide))).2.2.1⟩

/-- Counterexample to claim C4 as stated: for the empty descriptor
collection the run does not fail with the streams-unavailable error — the
selection loop is still prompting after the modeled inputs, the message was
never printed, and the filesystem is untouched. -/
theorem empty_collection_never_streams_error :
    (mainAfterInfo [] "My Video".data "abc".data "d".data
        [.line (some 1), .line none] envOk []).term = .outOfInputs
    ∧ Event.printMsg .streamsNotFound
        ∉ (mainAfterInfo [] "My Video".data "abc".data "d".data
            [.line (some 1), .line none] envOk []).events
    ∧ (mainAfterInfo [] "My Video".data "abc".data "d".data
        [.line (some 1), .line none] envOk []).fs = ([] : List FPath) := by
  refine ⟨by decide, by decide, by decide⟩

end Youtube
